import Mathlib

/-
Verification development for the GraphicsTransforms demo
(src/GraphicsTransforms/GraphicsTransforms.cpp).

The camera/transform state and the input handlers are embedded as Lean
definitions over the real numbers: `WindowData` mirrors the C++ struct of the
same name, the GLFW callbacks (`mouse_callback`, `scroll_callback`), the
per-frame key handlers of `main` and the camera reset lambda become pure state
transformers, and the GLM matrix constructors (`glm::lookAt`, `glm::ortho`,
`glm::perspective`) are written out entry by entry as 4x4 real matrices,
following the GLM reference implementation (right-handed, negative-one-to-one
clip depth, column-major storage transcribed here in row-major mathematical
layout).
-/

noncomputable section

namespace GraphicsTransforms

open Real

/-- 2D vector over the reals, modelling glm::vec2. -/
structure Vec2 where
  x : ℝ
  y : ℝ
deriving DecidableEq

/-- 3D vector over the reals, modelling glm::vec3. -/
structure Vec3 where
  x : ℝ
  y : ℝ
  z : ℝ

namespace Vec3

/-- Componentwise addition, modelling operator+ on glm::vec3. -/
def add (a b : Vec3) : Vec3 := ⟨a.x + b.x, a.y + b.y, a.z + b.z⟩

/-- Componentwise subtraction, modelling operator- on glm::vec3. -/
def sub (a b : Vec3) : Vec3 := ⟨a.x - b.x, a.y - b.y, a.z - b.z⟩

/-- Scalar multiplication, modelling scalar * glm::vec3. -/
def smul (c : ℝ) (v : Vec3) : Vec3 := ⟨c * v.x, c * v.y, c * v.z⟩

/-- Dot product, modelling glm::dot. -/
def dot (a b : Vec3) : ℝ := a.x * b.x + a.y * b.y + a.z * b.z

/-- Cross product, modelling glm::cross. -/
def cross (a b : Vec3) : Vec3 :=
  ⟨a.y * b.z - a.z * b.y, a.z * b.x - a.x * b.z, a.x * b.y - a.y * b.x⟩

/-- Euclidean norm, modelling glm::length. -/
def norm (v : Vec3) : ℝ := Real.sqrt (v.x ^ 2 + v.y ^ 2 + v.z ^ 2)

/-- Normalization, modelling glm::normalize. -/
def normalize (v : Vec3) : Vec3 := ⟨v.x / v.norm, v.y / v.norm, v.z / v.norm⟩

lemma normalize_of_norm_one {v : Vec3} (h : v.norm = 1) : v.normalize = v := by
  simp [normalize, h]

end Vec3

/-- The fixed world-space up vector (line 21 of the source). -/
def up : Vec3 := ⟨0, 1, 0⟩

/-- Near-plane distances of the two cameras (line 27 of the source). -/
def near : Fin 2 → ℝ := ![0.1, 0.1]

/-- Far-plane distances of the two cameras (line 29 of the source). -/
def far : Fin 2 → ℝ := ![10, 50]

/-- Degrees-to-radians conversion, modelling glm::radians. -/
def radians (deg : ℝ) : ℝ := deg * (π / 180)

/-- std::clamp v lo hi for lo ≤ hi. -/
def clamp (v lo hi : ℝ) : ℝ := max lo (min v hi)

/-- The two projection types (lines 32-51 of the source). -/
inductive ProjectionType where
  | perspective
  | orthographic
deriving DecidableEq

/-- 4x4 real matrix, modelling glm::mat4. -/
abbrev Mat4 := Matrix (Fin 4) (Fin 4) ℝ

/-- The front direction computed by WindowData::calculate_camera_front
(lines 92-112 of the source): the vector
(cos yaw * cos pitch, sin pitch, sin yaw * cos pitch), normalized. -/
def camera_front (yaw pitch : ℝ) : Vec3 :=
  let sy := Real.sin yaw
  let cy := Real.cos yaw
  let sp := Real.sin pitch
  let cp := Real.cos pitch
  Vec3.normalize ⟨cy * cp, sp, sy * cp⟩

lemma front_raw_norm (y p : ℝ) :
    Vec3.norm ⟨Real.cos y * Real.cos p, Real.sin p, Real.sin y * Real.cos p⟩ = 1 := by
  have h : (Real.cos y * Real.cos p) ^ 2 + Real.sin p ^ 2 +
      (Real.sin y * Real.cos p) ^ 2 = 1 := by
    have h1 := Real.sin_sq_add_cos_sq y
    have h2 := Real.sin_sq_add_cos_sq p
    nlinarith [h1, h2]
  simp only [Vec3.norm, h, Real.sqrt_one]

lemma camera_front_eq (y p : ℝ) :
    camera_front y p = ⟨Real.cos y * Real.cos p, Real.sin p, Real.sin y * Real.cos p⟩ :=
  Vec3.normalize_of_norm_one (front_raw_norm y p)

lemma camera_front_norm (y p : ℝ) : (camera_front y p).norm = 1 := by
  rw [camera_front_eq]; exact front_raw_norm y p

/-- Claim C1: for every yaw and every pitch in [-89°, 89°], the derived front
vector equals normalize((cos yaw * cos pitch, sin pitch, sin yaw * cos pitch))
and is a unit vector, and at yaw = -90°, pitch = 0 it equals (0, 0, -1). -/
theorem C1_front_vector :
    (∀ y p : ℝ, radians (-89) ≤ p → p ≤ radians 89 →
      camera_front y p =
        Vec3.normalize ⟨Real.cos y * Real.cos p, Real.sin p, Real.sin y * Real.cos p⟩ ∧
      (camera_front y p).norm = 1) ∧
    camera_front (radians (-90)) 0 = ⟨0, 0, -1⟩ := by
  constructor
  · intro y p _ _
    exact ⟨rfl, camera_front_norm y p⟩
  · have h : radians (-90) = -(π / 2) := by unfold radians; ring
    rw [camera_front_eq, h]
    simp [Real.cos_pi_div_two, Real.sin_pi_div_two]

/-- Witness for C1 at yaw = 0, pitch = 0. -/
theorem C1_front_vector_witness :
    camera_front 0 0 =
      Vec3.normalize ⟨Real.cos 0 * Real.cos 0, Real.sin 0, Real.sin 0 * Real.cos 0⟩ ∧
    (camera_front 0 0).norm = 1 :=
  C1_front_vector.1 0 0
    (by unfold radians; nlinarith [Real.pi_pos])
    (by unfold radians; nlinarith [Real.pi_pos])

/-- The WindowData struct (lines 55-156 of the source): window size, camera
selection indices, enable flags, mouse bookkeeping, and per-camera
orientation, position and projection parameters. -/
structure WindowData where
  width : ℤ
  height : ℤ
  camera_active_index : Fin 2
  camera_fov_control_index : Fin 2
  view_enable : Fin 2 → Bool
  projection_enable : Fin 2 → Bool
  mouse_first : Bool
  mouse_pos_last : Vec2
  yaw : Fin 2 → ℝ
  pitch : Fin 2 → ℝ
  camera_pos : Fin 2 → Vec3
  projection_type : Fin 2 → ProjectionType
  ortho_height_half : Fin 2 → ℝ
  fov : Fin 2 → ℝ

/-- glm::lookAt, right-handed variant: rows of the rotation block are the
side, up and negated-forward axes; the last column maps eye to the origin. -/
def lookAt (eye center upv : Vec3) : Mat4 :=
  let f := (center.sub eye).normalize
  let s := (f.cross upv).normalize
  let u := s.cross f
  !![s.x, s.y, s.z, -(s.dot eye);
     u.x, u.y, u.z, -(u.dot eye);
     -f.x, -f.y, -f.z, f.dot eye;
     0, 0, 0, 1]

/-- glm::ortho, right-handed, clip depth in [-1, 1]. -/
def ortho (l r b t n f : ℝ) : Mat4 :=
  !![2 / (r - l), 0, 0, -((r + l) / (r - l));
     0, 2 / (t - b), 0, -((t + b) / (t - b));
     0, 0, -2 / (f - n), -((f + n) / (f - n));
     0, 0, 0, 1]

/-- glm::perspective, right-handed, clip depth in [-1, 1]. -/
def perspective (fovy aspect n f : ℝ) : Mat4 :=
  let t := Real.tan (fovy / 2)
  !![1 / (aspect * t), 0, 0, 0;
     0, 1 / t, 0, 0;
     0, 0, -((f + n) / (f - n)), -(2 * f * n / (f - n));
     0, 0, -1, 0]

/-- WindowData::calculate_camera_front for camera i. -/
def WindowData.calculate_camera_front (d : WindowData) (i : Fin 2) : Vec3 :=
  camera_front (d.yaw i) (d.pitch i)

/-- WindowData::calculate_view (lines 114-125 of the source): identity when
the view is disabled, otherwise glm::lookAt from position, position + front
and the world up vector. -/
def WindowData.calculate_view (d : WindowData) (i : Fin 2) : Mat4 :=
  if d.view_enable i then
    let front := d.calculate_camera_front i
    let pos := d.camera_pos i
    lookAt pos (pos.add front) up
  else 1

/-- The window aspect ratio width / height used in
WindowData::calculate_projection. -/
def WindowData.aspect (d : WindowData) : ℝ := (d.width : ℝ) / (d.height : ℝ)

/-- WindowData::calculate_projection (lines 127-155 of the source): identity
when the projection is disabled, otherwise glm::ortho on the box determined by
ortho_height_half and the aspect ratio, or glm::perspective from fov. -/
def WindowData.calculate_projection (d : WindowData) (i : Fin 2) : Mat4 :=
  if d.projection_enable i then
    match d.projection_type i with
    | ProjectionType.orthographic =>
      let h := d.ortho_height_half i
      let w := h * d.aspect
      ortho (-w) w (-h) h (near i) (far i)
    | ProjectionType.perspective => perspective (d.fov i) d.aspect (near i) (far i)
  else 1

/-- Initial yaw of the two cameras (line 339 of the source). -/
def yaw_initial : Fin 2 → ℝ := ![radians (-90), 0]

/-- Initial pitch of the two cameras (line 340 of the source). -/
def pitch_initial : Fin 2 → ℝ := ![0, radians (-30)]

/-- Initial positions of the two cameras (line 341 of the source). -/
def camera_pos_initial : Fin 2 → Vec3 := ![⟨0, 0, 1⟩, ⟨-5, 3, 1⟩]

/-- Initial orthographic half-heights (line 342 of the source). -/
def ortho_height_half_initial : Fin 2 → ℝ := ![2, 2]

/-- Initial fields of view (line 343 of the source). -/
def fov_initial : Fin 2 → ℝ := ![radians 45, radians 45]

/-- The initial WindowData value (lines 346-360 of the source); the omitted
mouse_pos_last member is value-initialized to (0, 0). -/
def window_data_initial : WindowData :=
  { width := 800
    height := 600
    camera_active_index := 0
    camera_fov_control_index := 0
    view_enable := ![false, true]
    projection_enable := ![false, true]
    mouse_first := true
    mouse_pos_last := ⟨0, 0⟩
    yaw := yaw_initial
    pitch := pitch_initial
    camera_pos := camera_pos_initial
    projection_type := ![ProjectionType.perspective, ProjectionType.perspective]
    ortho_height_half := ortho_height_half_initial
    fov := fov_initial }

/-- mouse_callback (lines 176-209 of the source): on the first call only the
stored last position is initialized; afterwards, if the active camera's view
is enabled, the screen-space offset scaled by sensitivity 0.1 is added to yaw
and (sign-flipped) to pitch, and pitch is clamped to [-89°, 89°]. When the
active camera's view is disabled the callback returns without touching yaw,
pitch or the stored last position. -/
def mouse_callback (d : WindowData) (xpos ypos : ℝ) : WindowData :=
  let pos : Vec2 := ⟨xpos, ypos⟩
  let d1 := if d.mouse_first then { d with mouse_pos_last := pos, mouse_first := false } else d
  if d1.view_enable d1.camera_active_index then
    let offsetx := pos.x - d1.mouse_pos_last.x
    let offsety := pos.y - d1.mouse_pos_last.y
    let sensitivity : ℝ := 0.1
    let yaw_delta := radians (offsetx * sensitivity)
    let pitch_delta := radians (offsety * -sensitivity)
    let i := d1.camera_active_index
    { d1 with
      mouse_pos_last := pos
      yaw := Function.update d1.yaw i (d1.yaw i + yaw_delta)
      pitch := Function.update d1.pitch i
        (clamp (d1.pitch i + pitch_delta) (radians (-89)) (radians 89)) }
  else d1

/-- scroll_callback (lines 216-244 of the source): a no-op when the
fov-control camera's projection is disabled; otherwise subtracts
radians(yoffset) from fov and clamps to [1°, 90°] (perspective), or subtracts
yoffset / 10 from ortho_height_half and clamps below by 0.1 (orthographic). -/
def scroll_callback (d : WindowData) (xoffset yoffset : ℝ) : WindowData :=
  if d.projection_enable d.camera_fov_control_index then
    match d.projection_type d.camera_fov_control_index with
    | ProjectionType.perspective =>
      let fov_delta := -(radians yoffset)
      let fov_new := d.fov d.camera_fov_control_index + fov_delta
      let fov2 := Function.update d.fov d.camera_fov_control_index
        (clamp fov_new (radians 1) (radians 90))
      { d with fov := fov2 }
    | ProjectionType.orthographic =>
      let height_delta := -(yoffset / 10)
      let height_half_new := d.ortho_height_half d.camera_fov_control_index + height_delta
      let ortho2 := Function.update d.ortho_height_half d.camera_fov_control_index
        (max 0.1 height_half_new)
      { d with ortho_height_half := ortho2 }
  else d

/-- The reset_camera lambda of main (lines 636-643 of the source). -/
def reset_camera (d : WindowData) (i : Fin 2) : WindowData :=
  { d with
    yaw := Function.update d.yaw i (yaw_initial i)
    pitch := Function.update d.pitch i (pitch_initial i)
    camera_pos := Function.update d.camera_pos i (camera_pos_initial i)
    ortho_height_half := Function.update d.ortho_height_half i (ortho_height_half_initial i)
    fov := Function.update d.fov i (fov_initial i) }

/-- Switching the active camera (key q, line 658 of the source). -/
def switch_active (d : WindowData) : WindowData :=
  { d with camera_active_index := d.camera_active_index + 1 }

/-- Switching the fov-control camera (key e, line 664 of the source). -/
def switch_fov_control (d : WindowData) : WindowData :=
  { d with camera_fov_control_index := d.camera_fov_control_index + 1 }

/-- Toggling the projection type of camera i (keys z, x; lines 668-691). -/
def switch_projection (d : WindowData) (i : Fin 2) : WindowData :=
  let next := match d.projection_type i with
    | ProjectionType.orthographic => ProjectionType.perspective
    | ProjectionType.perspective => ProjectionType.orthographic
  { d with projection_type := Function.update d.projection_type i next }

/-- Toggling view_enable of camera i (keys c, v; lines 694-695). -/
def toggle_view (d : WindowData) (i : Fin 2) : WindowData :=
  { d with view_enable := Function.update d.view_enable i (!d.view_enable i) }

/-- Toggling projection_enable of camera i (keys b, n; lines 698-699). -/
def toggle_projection (d : WindowData) (i : Fin 2) : WindowData :=
  { d with projection_enable := Function.update d.projection_enable i (!d.projection_enable i) }

/-- The WASD movement of the main loop (lines 838-856 of the source): the
active camera's position is offset by 2.5 * dt times the front vector
(forward/back) or the unnormalized cross(front, up) vector (strafe). -/
def move_offset (d : WindowData) (v : Vec3) : WindowData :=
  let pos2 := Function.update d.camera_pos d.camera_active_index
    ((d.camera_pos d.camera_active_index).add v)
  { d with camera_pos := pos2 }

/-- The framebuffer size callback (lines 160-168 of the source). -/
def resize (d : WindowData) (w h : ℤ) : WindowData :=
  { d with width := w, height := h }

/-- The discrete inputs the main loop feeds into the camera state: the three
GLFW callbacks, the per-key-press handlers, and the per-frame WASD movement
with its frame time dt. -/
inductive Event where
  | mouseMove (xpos ypos : ℝ)
  | scroll (xoffset yoffset : ℝ)
  | reset (i : Fin 2)
  | switchActive
  | switchFovControl
  | switchProjection (i : Fin 2)
  | toggleView (i : Fin 2)
  | toggleProjection (i : Fin 2)
  | moveForward (dt : ℝ)
  | moveBack (dt : ℝ)
  | moveLeft (dt : ℝ)
  | moveRight (dt : ℝ)
  | resizeWindow (w h : ℤ)

/-- One step of the interactive loop: dispatch of a single event to the
corresponding handler of the source. -/
def step (d : WindowData) : Event → WindowData
  | Event.mouseMove x y => mouse_callback d x y
  | Event.scroll xo yo => scroll_callback d xo yo
  | Event.reset i => reset_camera d i
  | Event.switchActive => switch_active d
  | Event.switchFovControl => switch_fov_control d
  | Event.switchProjection i => switch_projection d i
  | Event.toggleView i => toggle_view d i
  | Event.toggleProjection i => toggle_projection d i
  | Event.moveForward dt =>
      move_offset d (Vec3.smul (2.5 * dt) (d.calculate_camera_front d.camera_active_index))
  | Event.moveBack dt =>
      move_offset d (Vec3.smul (-(2.5 * dt)) (d.calculate_camera_front d.camera_active_index))
  | Event.moveLeft dt =>
      move_offset d (Vec3.smul (-(2.5 * dt))
        ((d.calculate_camera_front d.camera_active_index).cross up))
  | Event.moveRight dt =>
      move_offset d (Vec3.smul (2.5 * dt)
        ((d.calculate_camera_front d.camera_active_index).cross up))
  | Event.resizeWindow w h => resize d w h

/-- The state reached from the initial WindowData after a list of events. -/
def run (es : List Event) : WindowData := es.foldl step window_data_initial

lemma radians_le_radians {a b : ℝ} (h : a ≤ b) : radians a ≤ radians b := by
  unfold radians
  exact mul_le_mul_of_nonneg_right h (by positivity)

lemma le_clamp (v lo hi : ℝ) : lo ≤ clamp v lo hi := le_max_left lo (min v hi)

lemma clamp_le {v lo hi : ℝ} (h : lo ≤ hi) : clamp v lo hi ≤ hi :=
  max_le h (min_le_right v hi)

lemma clamp_eq_self {v lo hi : ℝ} (h1 : lo ≤ v) (h2 : v ≤ hi) : clamp v lo hi = v := by
  unfold clamp
  rw [min_eq_left h2, max_eq_right h1]

lemma mouse_callback_of_first_disabled {d : WindowData} (x y : ℝ)
    (hf : d.mouse_first = true) (hv : d.view_enable d.camera_active_index = false) :
    mouse_callback d x y = { d with mouse_pos_last := ⟨x, y⟩, mouse_first := false } := by
  simp [mouse_callback, hf, hv]

lemma mouse_callback_of_disabled {d : WindowData} (x y : ℝ)
    (hf : d.mouse_first = false) (hv : d.view_enable d.camera_active_index = false) :
    mouse_callback d x y = d := by
  simp [mouse_callback, hf, hv]

lemma mouse_callback_of_enabled {d : WindowData} (x y : ℝ)
    (hf : d.mouse_first = false) (hv : d.view_enable d.camera_active_index = true) :
    mouse_callback d x y =
      { d with
        mouse_pos_last := ⟨x, y⟩
        yaw := Function.update d.yaw d.camera_active_index
          (d.yaw d.camera_active_index + radians ((x - d.mouse_pos_last.x) * 0.1))
        pitch := Function.update d.pitch d.camera_active_index
          (clamp (d.pitch d.camera_active_index + radians ((y - d.mouse_pos_last.y) * -0.1))
            (radians (-89)) (radians 89)) } := by
  simp [mouse_callback, hf, hv]

lemma mouse_callback_of_first_enabled {d : WindowData} (x y : ℝ)
    (hf : d.mouse_first = true) (hv : d.view_enable d.camera_active_index = true) :
    mouse_callback d x y =
      { d with
        mouse_first := false
        mouse_pos_last := ⟨x, y⟩
        yaw := Function.update d.yaw d.camera_active_index
          (d.yaw d.camera_active_index + radians ((x - x) * 0.1))
        pitch := Function.update d.pitch d.camera_active_index
          (clamp (d.pitch d.camera_active_index + radians ((y - y) * -0.1))
            (radians (-89)) (radians 89)) } := by
  simp [mouse_callback, hf, hv]

lemma scroll_callback_of_disabled {d : WindowData} (xo yo : ℝ)
    (h : d.projection_enable d.camera_fov_control_index = false) :
    scroll_callback d xo yo = d := by
  simp [scroll_callback, h]

lemma scroll_callback_of_perspective {d : WindowData} (xo yo : ℝ)
    (he : d.projection_enable d.camera_fov_control_index = true)
    (ht : d.projection_type d.camera_fov_control_index = ProjectionType.perspective) :
    scroll_callback d xo yo =
      { d with
        fov := Function.update d.fov d.camera_fov_control_index
          (clamp (d.fov d.camera_fov_control_index + -(radians yo))
            (radians 1) (radians 90)) } := by
  simp [scroll_callback, he, ht]

lemma scroll_callback_of_orthographic {d : WindowData} (xo yo : ℝ)
    (he : d.projection_enable d.camera_fov_control_index = true)
    (ht : d.projection_type d.camera_fov_control_index = ProjectionType.orthographic) :
    scroll_callback d xo yo =
      { d with
        ortho_height_half := Function.update d.ortho_height_half
          d.camera_fov_control_index
          (max 0.1 (d.ortho_height_half d.camera_fov_control_index + -(yo / 10))) } := by
  simp [scroll_callback, he, ht]

lemma mouse_callback_pitch (d : WindowData) (x y : ℝ) (i : Fin 2) :
    (mouse_callback d x y).pitch i = d.pitch i ∨
    ∃ v, (mouse_callback d x y).pitch i = clamp v (radians (-89)) (radians 89) := by
  by_cases hf : d.mouse_first = true <;>
    by_cases hv : d.view_enable d.camera_active_index = true
  · rw [mouse_callback_of_first_enabled x y hf hv]
    by_cases hi : i = d.camera_active_index
    · subst hi
      right
      dsimp only
      rw [Function.update_same]
      exact ⟨_, rfl⟩
    · left
      exact Function.update_noteq hi _ _
  · rw [mouse_callback_of_first_disabled x y hf (by simpa using hv)]
    exact Or.inl rfl
  · rw [mouse_callback_of_enabled x y (by simpa using hf) hv]
    by_cases hi : i = d.camera_active_index
    · subst hi
      right
      dsimp only
      rw [Function.update_same]
      exact ⟨_, rfl⟩
    · left
      exact Function.update_noteq hi _ _
  · rw [mouse_callback_of_disabled x y (by simpa using hf) (by simpa using hv)]
    exact Or.inl rfl

lemma scroll_callback_pitch (d : WindowData) (xo yo : ℝ) :
    (scroll_callback d xo yo).pitch = d.pitch := by
  by_cases he : d.projection_enable d.camera_fov_control_index = true
  · rcases ht : d.projection_type d.camera_fov_control_index with _ | _
    · rw [scroll_callback_of_perspective xo yo he ht]
    · rw [scroll_callback_of_orthographic xo yo he ht]
  · rw [scroll_callback_of_disabled xo yo (by simpa using he)]

lemma scroll_callback_fov (d : WindowData) (xo yo : ℝ) (i : Fin 2) :
    (scroll_callback d xo yo).fov i = d.fov i ∨
    ∃ v, (scroll_callback d xo yo).fov i = clamp v (radians 1) (radians 90) := by
  by_cases he : d.projection_enable d.camera_fov_control_index = true
  · rcases ht : d.projection_type d.camera_fov_control_index with _ | _
    · rw [scroll_callback_of_perspective xo yo he ht]
      by_cases hi : i = d.camera_fov_control_index
      · subst hi
        right
        dsimp only
        rw [Function.update_same]
        exact ⟨_, rfl⟩
      · left
        exact Function.update_noteq hi _ _
    · rw [scroll_callback_of_orthographic xo yo he ht]
      left; rfl
  · rw [scroll_callback_of_disabled xo yo (by simpa using he)]
    left; rfl

lemma pitch_initial_mem (i : Fin 2) :
    radians (-89) ≤ pitch_initial i ∧ pitch_initial i ≤ radians 89 := by
  have h0 : radians 0 = 0 := by unfold radians; ring
  fin_cases i <;> simp only [pitch_initial] <;> constructor
  · simpa [h0] using radians_le_radians (show (-89 : ℝ) ≤ 0 by norm_num)
  · simpa [h0] using radians_le_radians (show (0 : ℝ) ≤ 89 by norm_num)
  · simpa using radians_le_radians (show (-89 : ℝ) ≤ -30 by norm_num)
  · simpa using radians_le_radians (show (-30 : ℝ) ≤ 89 by norm_num)

/-- The pitch invariant of the spec: both cameras' pitch lies in [-89°, 89°]. -/
def pitch_ok (d : WindowData) : Prop :=
  ∀ i, radians (-89) ≤ d.pitch i ∧ d.pitch i ≤ radians 89

lemma step_pitch (d : WindowData) (e : Event) (i : Fin 2) :
    (step d e).pitch i = d.pitch i ∨ (step d e).pitch i = pitch_initial i ∨
    ∃ v, (step d e).pitch i = clamp v (radians (-89)) (radians 89) := by
  cases e with
  | mouseMove x y =>
    rcases mouse_callback_pitch d x y i with h | ⟨v, hv⟩
    · exact Or.inl h
    · exact Or.inr (Or.inr ⟨v, hv⟩)
  | scroll xo yo =>
    exact Or.inl (congrFun (scroll_callback_pitch d xo yo) i)
  | reset j =>
    by_cases hi : i = j
    · subst hi
      exact Or.inr (Or.inl (by simp [step, reset_camera]))
    · exact Or.inl (by simp [step, reset_camera, Function.update_noteq hi])
  | switchActive => exact Or.inl rfl
  | switchFovControl => exact Or.inl rfl
  | switchProjection j => exact Or.inl rfl
  | toggleView j => exact Or.inl rfl
  | toggleProjection j => exact Or.inl rfl
  | moveForward dt => exact Or.inl rfl
  | moveBack dt => exact Or.inl rfl
  | moveLeft dt => exact Or.inl rfl
  | moveRight dt => exact Or.inl rfl
  | resizeWindow w h => exact Or.inl rfl

lemma step_preserves_pitch_ok {d : WindowData} (e : Event) (h : pitch_ok d) :
    pitch_ok (step d e) := by
  intro i
  rcases step_pitch d e i with heq | heq | ⟨v, heq⟩
  · rw [heq]; exact h i
  · rw [heq]; exact pitch_initial_mem i
  · rw [heq]
    exact ⟨le_clamp _ _ _, clamp_le (radians_le_radians (by norm_num))⟩

lemma foldl_preserves_pitch_ok (es : List Event) :
    ∀ d : WindowData, pitch_ok d → pitch_ok (es.foldl step d) := by
  induction es with
  | nil => exact fun d h => h
  | cons e t ih => exact fun d h => ih (step d e) (step_preserves_pitch_ok e h)

/-- Claim C2: from the initial state, after any sequence of input events
(mouse moves, camera resets, or any of the other handlers), the pitch of
each camera stays within [-89°, 89°]. -/
theorem C2_pitch_invariant (es : List Event) (i : Fin 2) :
    radians (-89) ≤ (run es).pitch i ∧ (run es).pitch i ≤ radians 89 :=
  foldl_preserves_pitch_ok es window_data_initial
    (fun j => by simpa [window_data_initial] using pitch_initial_mem j) i

/-- The fov invariant actually maintained by the code: the closed
interval [1°, 90°]. -/
def fov_ok (d : WindowData) : Prop :=
  ∀ i, radians 1 ≤ d.fov i ∧ d.fov i ≤ radians 90

lemma fov_initial_mem (i : Fin 2) :
    radians 1 ≤ fov_initial i ∧ fov_initial i ≤ radians 90 := by
  fin_cases i <;> simp only [fov_initial] <;> constructor
  · simpa using radians_le_radians (show (1 : ℝ) ≤ 45 by norm_num)
  · simpa using radians_le_radians (show (45 : ℝ) ≤ 90 by norm_num)
  · simpa using radians_le_radians (show (1 : ℝ) ≤ 45 by norm_num)
  · simpa using radians_le_radians (show (45 : ℝ) ≤ 90 by norm_num)

lemma step_fov (d : WindowData) (e : Event) (i : Fin 2) :
    (step d e).fov i = d.fov i ∨ (step d e).fov i = fov_initial i ∨
    ∃ v, (step d e).fov i = clamp v (radians 1) (radians 90) := by
  cases e with
  | scroll xo yo =>
    rcases scroll_callback_fov d xo yo i with h | ⟨v, hv⟩
    · exact Or.inl h
    · exact Or.inr (Or.inr ⟨v, hv⟩)
  | mouseMove x y =>
    by_cases hf : d.mouse_first = true <;>
      by_cases hv : d.view_enable d.camera_active_index = true
    · rw [show step d (Event.mouseMove x y) = _ from mouse_callback_of_first_enabled x y hf hv]
      exact Or.inl rfl
    · rw [show step d (Event.mouseMove x y) = _ from
        mouse_callback_of_first_disabled x y hf (by simpa using hv)]
      exact Or.inl rfl
    · rw [show step d (Event.mouseMove x y) = _ from
        mouse_callback_of_enabled x y (by simpa using hf) hv]
      exact Or.inl rfl
    · rw [show step d (Event.mouseMove x y) = _ from
        mouse_callback_of_disabled x y (by simpa using hf) (by simpa using hv)]
      exact Or.inl rfl
  | reset j =>
    by_cases hi : i = j
    · subst hi
      exact Or.inr (Or.inl (by simp [step, reset_camera]))
    · exact Or.inl (by simp [step, reset_camera, Function.update_noteq hi])
  | switchActive => exact Or.inl rfl
  | switchFovControl => exact Or.inl rfl
  | switchProjection j => exact Or.inl rfl
  | toggleView j => exact Or.inl rfl
  | toggleProjection j => exact Or.inl rfl
  | moveForward dt => exact Or.inl rfl
  | moveBack dt => exact Or.inl rfl
  | moveLeft dt => exact Or.inl rfl
  | moveRight dt => exact Or.inl rfl
  | resizeWindow w h => exact Or.inl rfl

lemma step_preserves_fov_ok {d : WindowData} (e : Event) (h : fov_ok d) :
    fov_ok (step d e) := by
  intro i
  rcases step_fov d e i with heq | heq | ⟨v, heq⟩
  · rw [heq]; exact h i
  · rw [heq]; exact fov_initial_mem i
  · rw [heq]
    exact ⟨le_clamp _ _ _, clamp_le (radians_le_radians (by norm_num))⟩

lemma foldl_preserves_fov_ok (es : List Event) :
    ∀ d : WindowData, fov_ok d → fov_ok (es.foldl step d) := by
  induction es with
  | nil => exact fun d h => h
  | cons e t ih => exact fun d h => ih (step d e) (step_preserves_fov_ok e h)

/-- Claim C3, amended: from the initial state, after any sequence of input
events, the field of view of each camera stays within the closed
interval [1°, 90°]. -/
theorem C3_fov_invariant (es : List Event) (i : Fin 2) :
    radians 1 ≤ (run es).fov i ∧ (run es).fov i ≤ radians 90 :=
  foldl_preserves_fov_ok es window_data_initial
    (fun j => by simpa [window_data_initial] using fov_initial_mem j) i

/-- Counterexample to claim C3 as stated: switching fov control to camera 1
(whose projection is enabled and perspective, fov 45°) and scrolling with
yoffset 44 drives the fov to exactly 1°, which lies outside the half-open
interval (1°, 90°] claimed as the valid range. -/
theorem C3_fov_counterexample :
    (run [Event.switchFovControl, Event.scroll 0 44]).fov 1 = radians 1 ∧
    (run [Event.switchFovControl, Event.scroll 0 44]).fov 1 ∉
      Set.Ioc (radians 1) (radians 90) := by
  have hstate : run [Event.switchFovControl, Event.scroll 0 44] =
      scroll_callback (switch_fov_control window_data_initial) 0 44 := rfl
  have hfc : (switch_fov_control window_data_initial).camera_fov_control_index = 1 := rfl
  have he : (switch_fov_control window_data_initial).projection_enable
      ((switch_fov_control window_data_initial).camera_fov_control_index) = true := by
    rw [hfc]; rfl
  have ht : (switch_fov_control window_data_initial).projection_type
      ((switch_fov_control window_data_initial).camera_fov_control_index) =
      ProjectionType.perspective := by
    rw [hfc]; rfl
  have hval : (run [Event.switchFovControl, Event.scroll 0 44]).fov 1 = radians 1 := by
    rw [hstate, scroll_callback_of_perspective 0 44 he ht]
    dsimp only
    rw [hfc, Function.update_same]
    have harg : (switch_fov_control window_data_initial).fov 1 + -(radians 44) = radians 1 := by
      show radians 45 + -(radians 44) = radians 1
      unfold radians; ring
    rw [harg]
    exact clamp_eq_self le_rfl (radians_le_radians (show (1 : ℝ) ≤ 90 by norm_num))
  refine ⟨hval, ?_⟩
  rw [hval]
  simp [Set.mem_Ioc]

lemma radians_zero : radians 0 = 0 := by unfold radians; ring

/-- Counterexample to claim C4 as stated: in the initial state the active
camera's view is disabled, so a second mouse-move event with dx = 10 leaves
yaw unchanged at -90° instead of adding radians(10 * 0.1) as claimed. -/
theorem C4_mouse_counterexample :
    (run [Event.mouseMove 0 0, Event.mouseMove 10 0]).yaw 0 = radians (-90) ∧
    radians (-90) + radians (10 * 0.1) ≠ radians (-90) := by
  constructor
  · have h1 : run [Event.mouseMove 0 0, Event.mouseMove 10 0] =
        mouse_callback (mouse_callback window_data_initial 0 0) 10 0 := rfl
    have h2 : mouse_callback window_data_initial 0 0 =
        { window_data_initial with mouse_pos_last := ⟨0, 0⟩, mouse_first := false } :=
      mouse_callback_of_first_disabled 0 0 rfl rfl
    rw [h1, h2, mouse_callback_of_disabled 10 0 rfl rfl]
    rfl
  · unfold radians
    intro h
    nlinarith [Real.pi_pos]

/-- Claim C4, amended: a mouse-move event after the first applies the yaw and
pitch update (with sensitivity 0.1 and pitch clamped to [-89°, 89°]) only
when the active camera's viewEnabled flag is true; when the flag is false the
event leaves yaw and pitch unchanged; and a zero-delta event leaves yaw and
pitch of every camera unchanged whenever pitch is within [-89°, 89°]. -/
theorem C4_mouse_update (d : WindowData) (dx dy : ℝ) (d' : WindowData)
    (hf : d.mouse_first = false)
    (hd : d' = mouse_callback d (d.mouse_pos_last.x + dx) (d.mouse_pos_last.y + dy)) :
    (d.view_enable d.camera_active_index = true →
      d'.yaw d.camera_active_index = d.yaw d.camera_active_index + radians (dx * 0.1) ∧
      d'.pitch d.camera_active_index =
        clamp (d.pitch d.camera_active_index + radians (dy * -0.1))
          (radians (-89)) (radians 89)) ∧
    (d.view_enable d.camera_active_index = false →
      ∀ j, d'.yaw j = d.yaw j ∧ d'.pitch j = d.pitch j) ∧
    (dx = 0 → dy = 0 → radians (-89) ≤ d.pitch d.camera_active_index →
      d.pitch d.camera_active_index ≤ radians 89 →
      ∀ j, d'.yaw j = d.yaw j ∧ d'.pitch j = d.pitch j) := by
  subst hd
  by_cases hv : d.view_enable d.camera_active_index = true
  · rw [mouse_callback_of_enabled _ _ hf hv]
    have hx : d.mouse_pos_last.x + dx - d.mouse_pos_last.x = dx := by ring
    have hy : d.mouse_pos_last.y + dy - d.mouse_pos_last.y = dy := by ring
    refine ⟨fun _ => ?_, fun hv' => ?_, fun h0x h0y hp1 hp2 j => ?_⟩
    · dsimp only
      rw [hx, hy, Function.update_same, Function.update_same]
      exact ⟨rfl, rfl⟩
    · rw [hv] at hv'
      exact absurd hv' (by simp)
    · subst h0x; subst h0y
      dsimp only
      by_cases hj : j = d.camera_active_index
      · subst hj
        rw [hx, hy, Function.update_same, Function.update_same]
        constructor
        · simp [radians_zero]
        · rw [show (0 : ℝ) * -0.1 = 0 by ring, radians_zero, add_zero]
          exact clamp_eq_self hp1 hp2
      · exact ⟨Function.update_noteq hj _ _, Function.update_noteq hj _ _⟩
  · rw [mouse_callback_of_disabled _ _ hf (by simpa using hv)]
    exact ⟨fun hv' => absurd hv' hv, fun _ j => ⟨rfl, rfl⟩, fun _ _ _ _ j => ⟨rfl, rfl⟩⟩

/-- A state with the mouse initialized and camera 1 (view enabled,
pitch -30°) active, used to exercise the mouse-move update. -/
def mouse_demo : WindowData :=
  { window_data_initial with mouse_first := false, camera_active_index := 1 }

/-- Witness for C4: at mouse_demo a (10, 0) move adds radians(1) to yaw, and
a zero-delta move leaves yaw unchanged. -/
theorem C4_mouse_update_witness :
    (mouse_callback mouse_demo (mouse_demo.mouse_pos_last.x + 10)
        (mouse_demo.mouse_pos_last.y + 0)).yaw mouse_demo.camera_active_index =
      mouse_demo.yaw mouse_demo.camera_active_index + radians (10 * 0.1) ∧
    (mouse_callback mouse_demo (mouse_demo.mouse_pos_last.x + 0)
        (mouse_demo.mouse_pos_last.y + 0)).yaw 1 = mouse_demo.yaw 1 :=
  ⟨((C4_mouse_update mouse_demo 10 0 _ rfl rfl).1 rfl).1,
   (((C4_mouse_update mouse_demo 0 0 _ rfl rfl).2.2 rfl rfl
      (radians_le_radians (show (-89 : ℝ) ≤ -30 by norm_num))
      (radians_le_radians (show (-30 : ℝ) ≤ 89 by norm_num))) 1).1⟩

/-- Claim C9: a scroll event changes at most the fov-control camera's fov
(perspective) or ortho_height_half (orthographic), changes nothing when that
camera's projection is disabled, and never touches positions, yaw, pitch,
window size, indices, flags or the mouse bookkeeping. -/
theorem C9_scroll_frame (d : WindowData) (xo yo : ℝ) (d' : WindowData)
    (hd : d' = scroll_callback d xo yo) :
    d'.width = d.width ∧ d'.height = d.height ∧
    d'.camera_active_index = d.camera_active_index ∧
    d'.camera_fov_control_index = d.camera_fov_control_index ∧
    d'.view_enable = d.view_enable ∧ d'.projection_enable = d.projection_enable ∧
    d'.mouse_first = d.mouse_first ∧ d'.mouse_pos_last = d.mouse_pos_last ∧
    d'.yaw = d.yaw ∧ d'.pitch = d.pitch ∧ d'.camera_pos = d.camera_pos ∧
    d'.projection_type = d.projection_type ∧
    (d.projection_enable d.camera_fov_control_index = false → d' = d) ∧
    (d.projection_type d.camera_fov_control_index = ProjectionType.perspective →
      d'.ortho_height_half = d.ortho_height_half ∧
      ∀ j, j ≠ d.camera_fov_control_index → d'.fov j = d.fov j) ∧
    (d.projection_type d.camera_fov_control_index = ProjectionType.orthographic →
      d'.fov = d.fov ∧
      ∀ j, j ≠ d.camera_fov_control_index →
        d'.ortho_height_half j = d.ortho_height_half j) := by
  subst hd
  by_cases he : d.projection_enable d.camera_fov_control_index = true
  · rcases ht : d.projection_type d.camera_fov_control_index with _ | _
    · rw [scroll_callback_of_perspective xo yo he ht]
      refine ⟨rfl, rfl, rfl, rfl, rfl, rfl, rfl, rfl, rfl, rfl, rfl, rfl, ?_, ?_, ?_⟩
      · intro h; rw [he] at h; exact absurd h (by simp)
      · exact fun _ => ⟨rfl, fun j hj => Function.update_noteq hj _ _⟩
      · intro h; exact absurd h (by decide)
    · rw [scroll_callback_of_orthographic xo yo he ht]
      refine ⟨rfl, rfl, rfl, rfl, rfl, rfl, rfl, rfl, rfl, rfl, rfl, rfl, ?_, ?_, ?_⟩
      · intro h; rw [he] at h; exact absurd h (by simp)
      · intro h; exact absurd h (by decide)
      · exact fun _ => ⟨rfl, fun j hj => Function.update_noteq hj _ _⟩
  · rw [scroll_callback_of_disabled xo yo (by simpa using he)]
    exact ⟨rfl, rfl, rfl, rfl, rfl, rfl, rfl, rfl, rfl, rfl, rfl, rfl, fun _ => rfl,
      fun _ => ⟨rfl, fun j _ => rfl⟩, fun _ => ⟨rfl, fun j _ => rfl⟩⟩

/-- Witness for C9 at the initial state: the fov-control camera's projection
is disabled, so scrolling changes nothing. -/
theorem C9_scroll_frame_witness :
    scroll_callback window_data_initial 0 1 = window_data_initial ∧
    (scroll_callback window_data_initial 0 1).ortho_height_half =
      window_data_initial.ortho_height_half := by
  obtain ⟨_, _, _, _, _, _, _, _, _, _, _, _, hdis, hpersp, _⟩ :=
    C9_scroll_frame window_data_initial 0 1 _ rfl
  exact ⟨hdis rfl, (hpersp rfl).1⟩

/-- Claim C10: a mouse-move event changes at most the active camera's yaw and
pitch plus the stored last mouse position and first-call flag; everything
else, including the other camera's yaw and pitch, is unchanged. -/
theorem C10_mouse_frame (d : WindowData) (x y : ℝ) (d' : WindowData)
    (hd : d' = mouse_callback d x y) :
    d'.width = d.width ∧ d'.height = d.height ∧
    d'.camera_active_index = d.camera_active_index ∧
    d'.camera_fov_control_index = d.camera_fov_control_index ∧
    d'.view_enable = d.view_enable ∧ d'.projection_enable = d.projection_enable ∧
    d'.camera_pos = d.camera_pos ∧ d'.projection_type = d.projection_type ∧
    d'.fov = d.fov ∧ d'.ortho_height_half = d.ortho_height_half ∧
    ∀ j, j ≠ d.camera_active_index → d'.yaw j = d.yaw j ∧ d'.pitch j = d.pitch j := by
  subst hd
  by_cases hf : d.mouse_first = true <;>
    by_cases hv : d.view_enable d.camera_active_index = true
  · rw [mouse_callback_of_first_enabled x y hf hv]
    exact ⟨rfl, rfl, rfl, rfl, rfl, rfl, rfl, rfl, rfl, rfl,
      fun j hj => ⟨Function.update_noteq hj _ _, Function.update_noteq hj _ _⟩⟩
  · rw [mouse_callback_of_first_disabled x y hf (by simpa using hv)]
    exact ⟨rfl, rfl, rfl, rfl, rfl, rfl, rfl, rfl, rfl, rfl, fun j _ => ⟨rfl, rfl⟩⟩
  · rw [mouse_callback_of_enabled x y (by simpa using hf) hv]
    exact ⟨rfl, rfl, rfl, rfl, rfl, rfl, rfl, rfl, rfl, rfl,
      fun j hj => ⟨Function.update_noteq hj _ _, Function.update_noteq hj _ _⟩⟩
  · rw [mouse_callback_of_disabled x y (by simpa using hf) (by simpa using hv)]
    exact ⟨rfl, rfl, rfl, rfl, rfl, rfl, rfl, rfl, rfl, rfl, fun j _ => ⟨rfl, rfl⟩⟩

/-- Witness for C10 at the initial state with a (3, 4) mouse position. -/
theorem C10_mouse_frame_witness :
    (mouse_callback window_data_initial 3 4).camera_pos =
      window_data_initial.camera_pos ∧
    (mouse_callback window_data_initial 3 4).yaw 1 = window_data_initial.yaw 1 := by
  obtain ⟨_, _, _, _, _, _, hpos, _, _, _, hy⟩ :=
    C10_mouse_frame window_data_initial 3 4 _ rfl
  exact ⟨hpos, (hy 1 (by decide)).1⟩

lemma camera_front_cross_up (y p : ℝ) :
    (camera_front y p).cross up =
      ⟨-(Real.sin y * Real.cos p), 0, Real.cos y * Real.cos p⟩ := by
  rw [camera_front_eq]
  simp only [Vec3.cross, up, Vec3.mk.injEq]
  refine ⟨by ring, by ring, by ring⟩

lemma cross_up_norm (y p : ℝ) (hp : 0 ≤ Real.cos p) :
    ((camera_front y p).cross up).norm = Real.cos p := by
  rw [camera_front_cross_up]
  unfold Vec3.norm
  have h : (-(Real.sin y * Real.cos p)) ^ 2 + (0 : ℝ) ^ 2 +
      (Real.cos y * Real.cos p) ^ 2 = Real.cos p ^ 2 := by
    nlinarith [Real.sin_sq_add_cos_sq y]
  rw [h, Real.sqrt_sq hp]

lemma cos_pos_of_pitch {p : ℝ} (h1 : radians (-89) ≤ p) (h2 : p ≤ radians 89) :
    0 < Real.cos p := by
  apply Real.cos_pos_of_mem_Ioo
  unfold radians at h1 h2
  constructor
  · nlinarith [Real.pi_pos]
  · nlinarith [Real.pi_pos]

lemma move_forward_pos (d : WindowData) (dt : ℝ) :
    (step d (Event.moveForward dt)).camera_pos d.camera_active_index =
      (d.camera_pos d.camera_active_index).add
        (Vec3.smul (2.5 * dt) (d.calculate_camera_front d.camera_active_index)) := by
  simp [step, move_offset]

lemma move_right_pos (d : WindowData) (dt : ℝ) :
    (step d (Event.moveRight dt)).camera_pos d.camera_active_index =
      (d.camera_pos d.camera_active_index).add
        (Vec3.smul (2.5 * dt)
          ((d.calculate_camera_front d.camera_active_index).cross up)) := by
  simp [step, move_offset]

/-- A reachable-style state with camera 1 (yaw 0, pitch -30°) active, used to
exercise the movement code at a nonzero pitch. -/
def strafe_demo : WindowData :=
  { window_data_initial with camera_active_index := 1 }

/-- Counterexample to claim C5 as stated: with camera 1 active (pitch -30°),
one strafe-right frame with dt = 1 moves the camera by
2.5 * cross(front, up), whose z component is 2.5 * cos(30°), not by
2.5 * normalize(cross(front, up)), whose z component would be 2.5. -/
theorem C5_strafe_counterexample :
    ((step strafe_demo (Event.moveRight 1)).camera_pos 1).z ≠
      (strafe_demo.camera_pos 1).z +
        2.5 * 1 * (((strafe_demo.calculate_camera_front 1).cross up).normalize).z := by
  have hfront : strafe_demo.calculate_camera_front 1 = camera_front 0 (radians (-30)) := rfl
  have hp : radians (-30) = -(π / 6) := by unfold radians; ring
  have hcos : Real.cos (radians (-30)) = Real.sqrt 3 / 2 := by
    rw [hp, Real.cos_neg, Real.cos_pi_div_six]
  have hcross : (camera_front 0 (radians (-30))).cross up =
      ⟨0, 0, Real.sqrt 3 / 2⟩ := by
    rw [camera_front_cross_up]
    simp [hcos]
  have hnorm : (Vec3.norm ⟨0, 0, Real.sqrt 3 / 2⟩) = Real.sqrt 3 / 2 := by
    unfold Vec3.norm
    rw [show (0 : ℝ) ^ 2 + 0 ^ 2 + (Real.sqrt 3 / 2) ^ 2 = (Real.sqrt 3 / 2) ^ 2 by ring,
      Real.sqrt_sq (by positivity)]
  have hz : (((strafe_demo.calculate_camera_front 1).cross up).normalize).z = 1 := by
    rw [hfront, hcross]
    unfold Vec3.normalize
    rw [hnorm]
    have h3 : Real.sqrt 3 / 2 ≠ 0 := by positivity
    exact div_self h3
  have hmove : ((step strafe_demo (Event.moveRight 1)).camera_pos 1).z =
      (strafe_demo.camera_pos 1).z + 2.5 * 1 * (Real.sqrt 3 / 2) := by
    have h := move_right_pos strafe_demo 1
    rw [show strafe_demo.camera_active_index = 1 from rfl] at h
    rw [h, hfront, hcross]
    simp [Vec3.add, Vec3.smul]
  rw [hmove, hz]
  intro h
  have hs : Real.sqrt 3 = 2 := by
    have h25 : (2.5 : ℝ) * 1 * (Real.sqrt 3 / 2) = 2.5 * 1 * 1 := by linarith
    nlinarith [h25]
  have h9 := Real.sq_sqrt (show (0 : ℝ) ≤ 3 by norm_num)
  rw [hs] at h9
  norm_num at h9

/-- Claim C5, amended: a movement frame offsets the active camera's position
by exactly 2.5 * dt times the unit front vector (forward/back) or 2.5 * dt
times the unnormalized vector cross(front, worldUp) (strafe), whose length is
cos(pitch) rather than 1. -/
theorem C5_move (d : WindowData) (dt : ℝ)
    (h1 : radians (-89) ≤ d.pitch d.camera_active_index)
    (h2 : d.pitch d.camera_active_index ≤ radians 89) :
    (step d (Event.moveForward dt)).camera_pos d.camera_active_index =
      (d.camera_pos d.camera_active_index).add
        (Vec3.smul (2.5 * dt) (d.calculate_camera_front d.camera_active_index)) ∧
    (step d (Event.moveRight dt)).camera_pos d.camera_active_index =
      (d.camera_pos d.camera_active_index).add
        (Vec3.smul (2.5 * dt)
          ((d.calculate_camera_front d.camera_active_index).cross up)) ∧
    (d.calculate_camera_front d.camera_active_index).norm = 1 ∧
    ((d.calculate_camera_front d.camera_active_index).cross up).norm =
      Real.cos (d.pitch d.camera_active_index) :=
  ⟨move_forward_pos d dt, move_right_pos d dt, camera_front_norm _ _,
    cross_up_norm _ _ (cos_pos_of_pitch h1 h2).le⟩

/-- Witness for C5 at strafe_demo with dt = 1. -/
theorem C5_move_witness :
    (step strafe_demo (Event.moveRight 1)).camera_pos strafe_demo.camera_active_index =
      (strafe_demo.camera_pos strafe_demo.camera_active_index).add
        (Vec3.smul (2.5 * 1)
          ((strafe_demo.calculate_camera_front strafe_demo.camera_active_index).cross up)) ∧
    ((strafe_demo.calculate_camera_front strafe_demo.camera_active_index).cross up).norm =
      Real.cos (strafe_demo.pitch strafe_demo.camera_active_index) := by
  obtain ⟨_, hr, _, hn⟩ := C5_move strafe_demo 1
    (radians_le_radians (show (-89 : ℝ) ≤ -30 by norm_num))
    (radians_le_radians (show (-30 : ℝ) ≤ 89 by norm_num))
  exact ⟨hr, hn⟩

lemma add_sub_vec (a b : Vec3) : (a.add b).sub a = b := by
  show (⟨a.x + b.x - a.x, a.y + b.y - a.y, a.z + b.z - a.z⟩ : Vec3) = b
  rw [add_sub_cancel_left, add_sub_cancel_left, add_sub_cancel_left]

lemma side_vector (y p : ℝ) (hp : 0 < Real.cos p) :
    ((camera_front y p).cross up).normalize = ⟨-Real.sin y, 0, Real.cos y⟩ := by
  have hn := cross_up_norm y p hp.le
  have hne : Real.cos p ≠ 0 := ne_of_gt hp
  unfold Vec3.normalize
  rw [hn, camera_front_cross_up]
  simp only [Vec3.mk.injEq]
  refine ⟨?_, ?_, ?_⟩
  · field_simp
  · simp
  · field_simp

lemma up_vector (y p : ℝ) :
    Vec3.cross ⟨-Real.sin y, 0, Real.cos y⟩ (camera_front y p) =
      ⟨-(Real.cos y * Real.sin p), Real.cos p, -(Real.sin y * Real.sin p)⟩ := by
  rw [camera_front_eq]
  simp only [Vec3.cross, Vec3.mk.injEq]
  refine ⟨by ring, ?_, by ring⟩
  linear_combination Real.cos p * Real.sin_sq_add_cos_sq y

/-- The closed form of the look-at view matrix for a camera with the given
yaw, pitch and position, valid while cos(pitch) > 0. -/
def viewMat (y p : ℝ) (eye : Vec3) : Mat4 :=
  !![-Real.sin y, 0, Real.cos y,
       Real.sin y * eye.x - Real.cos y * eye.z;
     -(Real.cos y * Real.sin p), Real.cos p, -(Real.sin y * Real.sin p),
       Real.cos y * Real.sin p * eye.x - Real.cos p * eye.y + Real.sin y * Real.sin p * eye.z;
     -(Real.cos y * Real.cos p), -Real.sin p, -(Real.sin y * Real.cos p),
       Real.cos y * Real.cos p * eye.x + Real.sin p * eye.y + Real.sin y * Real.cos p * eye.z;
     0, 0, 0, 1]

/-- The explicit inverse of viewMat: transpose of the rotation block and the
camera position as translation. -/
def viewMatInv (y p : ℝ) (eye : Vec3) : Mat4 :=
  !![-Real.sin y, -(Real.cos y * Real.sin p), -(Real.cos y * Real.cos p), eye.x;
     0, Real.cos p, -Real.sin p, eye.y;
     Real.cos y, -(Real.sin y * Real.sin p), -(Real.sin y * Real.cos p), eye.z;
     0, 0, 0, 1]

lemma calculate_view_eq (d : WindowData) (i : Fin 2)
    (hv : d.view_enable i = true) (hp : 0 < Real.cos (d.pitch i)) :
    d.calculate_view i = viewMat (d.yaw i) (d.pitch i) (d.camera_pos i) := by
  unfold WindowData.calculate_view WindowData.calculate_camera_front
  rw [hv]
  simp only [if_true]
  unfold lookAt
  dsimp only
  rw [add_sub_vec, Vec3.normalize_of_norm_one (camera_front_norm (d.yaw i) (d.pitch i)),
    side_vector (d.yaw i) (d.pitch i) hp, up_vector (d.yaw i) (d.pitch i),
    camera_front_eq]
  unfold viewMat Vec3.dot
  ext a b
  fin_cases a <;> fin_cases b <;> simp <;> ring

lemma viewMat_mul_viewMatInv (y p : ℝ) (eye : Vec3) :
    viewMat y p eye * viewMatInv y p eye = 1 := by
  have hy := Real.sin_sq_add_cos_sq y
  have hpp := Real.sin_sq_add_cos_sq p
  ext a b
  fin_cases a <;> fin_cases b <;>
    simp [viewMat, viewMatInv, Matrix.mul_apply, Fin.sum_univ_four, Matrix.one_apply] <;>
    first
    | ring1
    | linear_combination hy
    | linear_combination Real.sin p * Real.cos p * hy
    | linear_combination Real.sin p ^ 2 * hy + hpp
    | linear_combination Real.cos p ^ 2 * hy + hpp

/-- Claim C7: for a camera whose pitch lies in [-89°, 89°], the view matrix
has a unit determinant factor (is invertible) and its Mathlib inverse is a
left inverse. -/
theorem C7_view_invertible (d : WindowData) (i : Fin 2)
    (h1 : radians (-89) ≤ d.pitch i) (h2 : d.pitch i ≤ radians 89) :
    IsUnit (d.calculate_view i).det ∧
    (d.calculate_view i)⁻¹ * d.calculate_view i = 1 := by
  by_cases hv : d.view_enable i = true
  · rw [calculate_view_eq d i hv (cos_pos_of_pitch h1 h2)]
    have hAB := viewMat_mul_viewMatInv (d.yaw i) (d.pitch i) (d.camera_pos i)
    have hdet := Matrix.isUnit_det_of_right_inverse hAB
    exact ⟨hdet, Matrix.nonsing_inv_mul _ hdet⟩
  · have hid : d.calculate_view i = 1 := by
      simp [WindowData.calculate_view, hv]
    rw [hid]
    simp

/-- Witness for C7 at the initial state, camera 1 (view enabled, pitch -30°). -/
theorem C7_view_invertible_witness :
    IsUnit (window_data_initial.calculate_view 1).det ∧
    (window_data_initial.calculate_view 1)⁻¹ * window_data_initial.calculate_view 1 = 1 :=
  C7_view_invertible window_data_initial 1
    (radians_le_radians (show (-89 : ℝ) ≤ -30 by norm_num))
    (radians_le_radians (show (-30 : ℝ) ≤ 89 by norm_num))

/-- Claim C6: a disabled view flag yields the identity view matrix, and a
disabled projection flag yields the identity projection matrix. -/
theorem C6_disabled_flags_identity (d : WindowData) (i : Fin 2) :
    (d.view_enable i = false → d.calculate_view i = 1) ∧
    (d.projection_enable i = false → d.calculate_projection i = 1) := by
  constructor
  · intro h; simp [WindowData.calculate_view, h]
  · intro h; simp [WindowData.calculate_projection, h]

/-- Witness for C6 at the initial state, camera 0, where both flags are false. -/
theorem C6_disabled_flags_identity_witness :
    window_data_initial.calculate_view 0 = 1 ∧
    window_data_initial.calculate_projection 0 = 1 :=
  ⟨(C6_disabled_flags_identity window_data_initial 0).1 rfl,
   (C6_disabled_flags_identity window_data_initial 0).2 rfl⟩

/-- An orthographic camera state: the initial 800x600 window with both
projections enabled and switched to orthographic (half-height 2). -/
def ortho_demo : WindowData :=
  { window_data_initial with
    projection_enable := ![true, true]
    projection_type := ![ProjectionType.orthographic, ProjectionType.orthographic] }

/-- Claim C8: with orthoHalfHeight 2 and aspect 800/600, the orthographic
projection maps the homogeneous point (2.667, 2, -5, 1) to clip coordinates
with x and y within 1/1000 of 1 (and unchanged homogeneous w). -/
theorem C8_ortho_projection_corner :
    |((ortho_demo.calculate_projection 0).mulVec ![2.667, 2, -5, 1]) 0 - 1| ≤ 1 / 1000 ∧
    |((ortho_demo.calculate_projection 0).mulVec ![2.667, 2, -5, 1]) 1 - 1| ≤ 1 / 1000 ∧
    ((ortho_demo.calculate_projection 0).mulVec ![2.667, 2, -5, 1]) 3 = 1 := by
  have hm : ortho_demo.calculate_projection 0 =
      ortho (-(2 * (4 / 3 : ℝ))) (2 * (4 / 3 : ℝ)) (-2) 2 (near 0) (far 0) := by
    have he : ortho_demo.projection_enable 0 = true := rfl
    have ht : ortho_demo.projection_type 0 = ProjectionType.orthographic := rfl
    have ha : ortho_demo.aspect = 4 / 3 := by
      show ((800 : ℤ) : ℝ) / ((600 : ℤ) : ℝ) = 4 / 3
      norm_num
    unfold WindowData.calculate_projection
    rw [he]
    simp only [if_true]
    rw [ht]
    dsimp only
    rw [show ortho_demo.ortho_height_half 0 = 2 from rfl, ha]
  rw [hm]
  refine ⟨?_, ?_, ?_⟩
  · simp [ortho, Matrix.mulVec, Matrix.dotProduct, Fin.sum_univ_four, near, far]
    rw [abs_le]
    constructor <;> norm_num
  · simp [ortho, Matrix.mulVec, Matrix.dotProduct, Fin.sum_univ_four, near, far]
    rw [abs_le]
    constructor <;> norm_num
  · simp [ortho, Matrix.mulVec, Matrix.dotProduct, Fin.sum_univ_four, near, far]

end GraphicsTransforms
